import Mathlib

/-
Verification of the GMO coin trading bot (src/main.py) against its
natural-language specification.  Python code is shallowly embedded:
floats are modelled as rationals, dictionaries as association lists,
wall-clock instants as rationals (for `time.time()` values) or as
natural numbers of seconds (for calendar datetimes), and raising code
as `Except`-returning functions.  Each definition is a direct
translation of the named function in src/main.py.
-/

namespace GmoBot

/-! ## Adaptive rate limiting (src/main.py, `adjust_rate_limit`, lines 328-343)

Global state: `current_rate_limit` (initially 20) and `rate_limit_errors`
(initially 0). -/

structure RateState where
  limit : ℤ
  errors : ℕ
deriving DecidableEq, Repr

/-- Initial module-level state: `current_rate_limit = 20`, `rate_limit_errors = 0`. -/
def initRateState : RateState := ⟨20, 0⟩

/-- Translation of `adjust_rate_limit(error_code)`.  On `'ERR-5003'` the error
counter is incremented and, once it reaches 3, the limit drops by 5 (floored at
5) and the counter resets to 0.  On any other code the counter decays by one
(floored at 0) and, if the decayed counter is 0 and the limit is below 20, the
limit rises by one (capped at 20). -/
def adjust_rate_limit (s : RateState) (code : String) : RateState :=
  if code = "ERR-5003" then
    let e := s.errors + 1
    if 3 ≤ e then { limit := max 5 (s.limit - 5), errors := 0 }
    else { s with errors := e }
  else
    let e := if 0 < s.errors then s.errors - 1 else s.errors
    if s.limit < 20 ∧ e = 0 then { limit := min 20 (s.limit + 1), errors := e }
    else { s with errors := e }

/-- Run a sequence of `adjust_rate_limit` calls from a starting state. -/
def runRateAdjust (s : RateState) (codes : List String) : RateState :=
  codes.foldl adjust_rate_limit s

lemma adjust_rate_limit_bounds (s : RateState) (c : String)
    (h5 : 5 ≤ s.limit) (h20 : s.limit ≤ 20) :
    5 ≤ (adjust_rate_limit s c).limit ∧ (adjust_rate_limit s c).limit ≤ 20 := by
  simp only [adjust_rate_limit]
  split_ifs <;> simp <;> omega

lemma runRateAdjust_bounds (codes : List String) (s : RateState)
    (h5 : 5 ≤ s.limit) (h20 : s.limit ≤ 20) :
    5 ≤ (runRateAdjust s codes).limit ∧ (runRateAdjust s codes).limit ≤ 20 := by
  induction codes generalizing s with
  | nil => exact ⟨h5, h20⟩
  | cons c cs ih =>
    have h := adjust_rate_limit_bounds s c h5 h20
    exact ih _ h.1 h.2

/-- C3, counterexample to the claim as stated: from (currentLimit 20, errors 0),
three consecutive ERR-5003 signals bring the limit to 15 — but the error
counter is reset to 0 at that moment, so the very next throttle-free call
already raises the limit to 16; it does not stay at 15. -/
theorem three_throttles_then_success_raises_limit :
    (adjust_rate_limit
      (runRateAdjust initRateState ["ERR-5003", "ERR-5003", "ERR-5003"]) "OK").limit = 16
    ∧ ¬ ((adjust_rate_limit
      (runRateAdjust initRateState ["ERR-5003", "ERR-5003", "ERR-5003"]) "OK").limit ≤ 15) := by
  constructor
  · rfl
  · decide

/-- C3, amended: from (currentLimit 20, errors 0), three consecutive ERR-5003
throttle signals set the limit to 15 and reset the consecutive-error counter to
zero, and therefore one further throttle-free call immediately raises the limit
to 16 (recovery is not delayed, since the counter is already zero). -/
theorem rate_limit_throttle_example :
    runRateAdjust initRateState ["ERR-5003", "ERR-5003", "ERR-5003"] = ⟨15, 0⟩
    ∧ adjust_rate_limit ⟨15, 0⟩ "OK" = ⟨16, 0⟩ := by
  constructor <;> rfl

/-- C7: starting from currentLimit=20 with a zero error counter, every sequence
of `adjust_rate_limit` calls with arbitrary error codes leaves the current rate
limit within [5, 20]. -/
theorem rate_limit_stays_in_bounds (codes : List String) :
    5 ≤ (runRateAdjust initRateState codes).limit
    ∧ (runRateAdjust initRateState codes).limit ≤ 20 :=
  runRateAdjust_bounds codes initRateState (by decide) (by decide)

/-! ## Ticker cache (src/main.py, `get_tickers_optimized`, lines 412-429)

`ticker_cache` is a dict from symbol to a dict with keys bid/ask/expiry;
`CACHE_TTL = 5` seconds.  The network fetch `get_tickers(uncached_symbols)`
is modelled by passing its `data` list as an explicit argument. -/

structure TickerEntry where
  bid : ℚ
  ask : ℚ
  expiry : ℚ
deriving DecidableEq, Repr

structure FetchItem where
  symbol : String
  bid : ℚ
  ask : ℚ
deriving DecidableEq, Repr

/-- A Python dict keyed by symbol, as an association list. -/
def Cache := List (String × TickerEntry)

/-- Dict lookup: `ticker_cache[s]` / `ticker_cache.get(s)`. -/
def lookupEntry (c : Cache) (s : String) : Option TickerEntry :=
  match c with
  | [] => none
  | (k, v) :: rest => if k = s then some v else lookupEntry rest s

/-- Dict assignment `ticker_cache[s] = e`. -/
def setEntry (c : Cache) (s : String) (e : TickerEntry) : Cache :=
  match c with
  | [] => [(s, e)]
  | (k, v) :: rest => if k = s then (s, e) :: rest else (k, v) :: setEntry rest s e

/-- `ticker_cache.get(s, dict()).get('expiry', 0)`. -/
def cacheExpiry (c : Cache) (s : String) : ℚ :=
  match lookupEntry c s with
  | some e => e.expiry
  | none => 0

/-- `CACHE_TTL = 5` (seconds). -/
def CACHE_TTL : ℚ := 5

/-- Translation of `get_tickers_optimized(symbols)` at lookup instant `t`
(`current_time = time.time()`); `fetched` is the `data` list of the batched
`get_tickers(uncached_symbols)` response, issued only when some requested
symbol is missing or expired.  Returns the served quotes and the new cache. -/
def get_tickers_optimized (cache : Cache) (symbols : List String) (t : ℚ)
    (fetched : List FetchItem) : List (String × TickerEntry) × Cache :=
  let uncached := symbols.filter (fun s => decide (cacheExpiry cache s < t))
  let cache' := if uncached.isEmpty then cache
    else fetched.foldl (fun c d => setEntry c d.symbol ⟨d.bid, d.ask, t + CACHE_TTL⟩) cache
  (symbols.filterMap (fun s => (lookupEntry cache' s).map (fun e => (s, e))), cache')

lemma filter_isEmpty_not_mem {α : Type} (l : List α) (p : α → Bool)
    (h : (l.filter p).isEmpty = true) (a : α) (ha : a ∈ l) : ¬ p a = true := by
  intro hp
  have hmem : a ∈ l.filter p := List.mem_filter.mpr ⟨ha, hp⟩
  rw [List.isEmpty_iff] at h
  rw [h] at hmem
  exact absurd hmem (List.not_mem_nil a)

lemma lookupEntry_setEntry (c : Cache) (k s : String) (e : TickerEntry) :
    lookupEntry (setEntry c k e) s = if k = s then some e else lookupEntry c s := by
  induction c with
  | nil => simp [setEntry, lookupEntry]
  | cons p rest ih =>
    obtain ⟨k', v⟩ := p
    by_cases hk : k' = k
    · subst hk
      simp only [setEntry, if_pos rfl, lookupEntry]
      split_ifs <;> simp_all
    · simp only [setEntry, if_neg hk, lookupEntry, ih]
      split_ifs <;> simp_all

lemma lookupEntry_foldl_setEntry (items : List FetchItem) (c : Cache) (t : ℚ)
    (s : String) (e : TickerEntry)
    (h : lookupEntry
      (items.foldl (fun c d => setEntry c d.symbol ⟨d.bid, d.ask, t + CACHE_TTL⟩) c) s
      = some e) :
    e.expiry = t + CACHE_TTL ∨
      (lookupEntry c s = some e ∧ ∀ d ∈ items, d.symbol ≠ s) := by
  induction items generalizing c with
  | nil => exact Or.inr ⟨h, by simp⟩
  | cons d ds ih =>
    rcases ih _ h with h1 | ⟨h2, h3⟩
    · exact Or.inl h1
    · rw [lookupEntry_setEntry] at h2
      by_cases hd : d.symbol = s
      · rw [if_pos hd] at h2
        have he : ({ bid := d.bid, ask := d.ask, expiry := t + CACHE_TTL } : TickerEntry) = e :=
          Option.some.inj h2
        exact Or.inl (by rw [← he])
      · rw [if_neg hd] at h2
        refine Or.inr ⟨h2, ?_⟩
        intro d' hd'
        rcases List.mem_cons.mp hd' with rfl | hmem
        · exact hd
        · exact h3 d' hmem

/-- C2, counterexample to the claim as stated: with a cached USD_JPY entry whose
expiry 0 is far earlier than the lookup time 10, and a fresh batched fetch that
returns no data, `get_tickers_optimized` still serves the expired entry. -/
theorem expired_quote_served_when_fetch_empty :
    (get_tickers_optimized [("USD_JPY", ⟨1, 2, 0⟩)] ["USD_JPY"] 10 []).1
      = [("USD_JPY", ⟨1, 2, 0⟩)]
    ∧ ((0 : ℚ) < 10) := by
  constructor
  · rfl
  · norm_num

/-- C2, amended: every quote returned by `get_tickers_optimized` either has an
expiry not earlier than the lookup time, or is a stale cache entry served for a
symbol for which the fresh batched fetch returned no data. -/
theorem get_tickers_optimized_expiry (cache : Cache) (symbols : List String)
    (t : ℚ) (fetched : List FetchItem) (s : String) (e : TickerEntry)
    (h : (s, e) ∈ (get_tickers_optimized cache symbols t fetched).1) :
    t ≤ e.expiry ∨
      (lookupEntry cache s = some e ∧ ∀ d ∈ fetched, d.symbol ≠ s) := by
  simp only [get_tickers_optimized] at h
  rw [List.mem_filterMap] at h
  obtain ⟨s', hs', hlook⟩ := h
  split at hlook
  case isTrue hempty =>
    cases hopt : lookupEntry cache s' with
    | none =>
      rw [hopt] at hlook
      exact Option.noConfusion hlook
    | some e' =>
      rw [hopt] at hlook
      injection hlook with hpair
      injection hpair with h1 h2
      subst s'
      subst e'
      left
      have hnot := filter_isEmpty_not_mem symbols
        (fun s => decide (cacheExpiry cache s < t)) hempty s hs'
      have hge : ¬ (cacheExpiry cache s < t) := by simpa using hnot
      have hexp : cacheExpiry cache s = e.expiry := by
        simp [cacheExpiry, hopt]
      rw [hexp] at hge
      exact not_lt.mp hge
  case isFalse =>
    cases hopt : lookupEntry
        (fetched.foldl (fun c d => setEntry c d.symbol ⟨d.bid, d.ask, t + CACHE_TTL⟩) cache) s' with
    | none =>
      rw [hopt] at hlook
      exact Option.noConfusion hlook
    | some e' =>
      rw [hopt] at hlook
      injection hlook with hpair
      injection hpair with h1 h2
      subst s'
      subst e'
      rcases lookupEntry_foldl_setEntry fetched cache t s e hopt with h1 | h2
      · left
        rw [h1]
        have h5 : (0 : ℚ) < CACHE_TTL := by norm_num [CACHE_TTL]
        linarith
      · exact Or.inr h2

/-- C2, witness: the amended theorem applied to a cache holding a fresh entry. -/
theorem get_tickers_optimized_expiry_witness :
    (("USD_JPY", (⟨1, 2, 30⟩ : TickerEntry)) ∈
      (get_tickers_optimized [("USD_JPY", ⟨1, 2, 30⟩)] ["USD_JPY"] 10 []).1)
    ∧ ((10 : ℚ) ≤ (30 : ℚ) ∨
      (lookupEntry [("USD_JPY", ⟨1, 2, 30⟩)] "USD_JPY" = some ⟨1, 2, 30⟩
        ∧ ∀ d ∈ ([] : List FetchItem), d.symbol ≠ "USD_JPY")) :=
  ⟨by decide,
    get_tickers_optimized_expiry [("USD_JPY", ⟨1, 2, 30⟩)] ["USD_JPY"] 10 []
      "USD_JPY" ⟨1, 2, 30⟩ (by decide)⟩

/-! ## Automatic position sizing (src/main.py, `calc_auto_lot_gmobot2`, lines 482-598)

Floats become rationals; `0.95` is `19/20`; Python `int(x)` truncates toward
zero, which on the nonnegative quotients reached here equals the floor.  The
two ticker fetches (the target symbol and the USD_JPY cross rate) are passed
as explicit arguments: `quote?` is the bid/ask row found for the symbol
(`None` when the fetch failed or had no matching row), `usdjpyBid?` is the
extracted USD_JPY bid (`None` when that fetch failed or had no row). -/

inductive Side where
  | buy
  | sell
deriving DecidableEq, Repr

/-- Python `"JPY" in symbol` (substring test) on the character list. -/
def listHasJPY : List Char → Bool
  | 'J' :: 'P' :: 'Y' :: _ => true
  | _ :: rest => listHasJPY rest
  | [] => false

/-- Python `"JPY" in symbol`. -/
def containsJPY (s : String) : Bool := listHasJPY s.data

structure QuotePair where
  bid : ℚ
  ask : ℚ
deriving DecidableEq, Repr

/-- Translation of `calc_auto_lot_gmobot2(balance, symbol, side, leverage)`
with the module constant `RISK_RATIO` passed as `riskRatio`. -/
def calc_auto_lot_gmobot2 (riskRatio balance leverage : ℚ) (symbol : String)
    (side : Side) (quote? : Option QuotePair) (usdjpyBid? : Option ℚ) :
    Except String ℤ :=
  if balance ≤ 0 then .error "invalid balance"
  else if leverage ≤ 0 then .error "invalid leverage"
  else if symbol = "" then .error "no symbol"
  else
    match quote? with
    | none => .error "ticker fetch failed"
    | some q =>
      let rate := match side with
        | .buy => q.ask
        | .sell => q.bid
      if rate ≤ 0 then .error "invalid rate"
      else
        let available := balance * riskRatio * (19 / 20)
        let volume : ℤ :=
          if containsJPY symbol then ⌊available * leverage / rate⌋
          else
            match usdjpyBid? with
            | some u =>
              if 0 < u then ⌊available / u * leverage / rate⌋
              else ⌊available * leverage / rate⌋
            | none => ⌊available * leverage / rate⌋
        let volume := if volume < 1 then 1 else volume
        let volume := if 500000 < volume then 500000 else volume
        .ok volume

lemma clamp_eq_max_min (v : ℤ) :
    (if (if v < 1 then 1 else v) > 500000 then (500000 : ℤ)
      else if v < 1 then 1 else v) = max 1 (min 500000 v) := by
  split_ifs <;> omega

/-- C6: the sizer uses available = balance × riskRatio × 0.95, picks ask for
BUY and bid for SELL, returns floor(available × leverage / rate) for symbols
containing "JPY", converts available through the USD/JPY bid first for other
symbols (falling back to the direct formula when the cross rate is
unavailable), and clamps the result to [1, 500000]. -/
theorem calc_auto_lot_gmobot2_spec (riskRatio balance leverage : ℚ)
    (symbol : String) (side : Side) (q : QuotePair) (usdjpyBid? : Option ℚ)
    (hb : 0 < balance) (hl : 0 < leverage) (hsym : symbol ≠ "")
    (hrate : 0 < (match side with | .buy => q.ask | .sell => q.bid)) :
    (containsJPY symbol = true →
      calc_auto_lot_gmobot2 riskRatio balance leverage symbol side (some q) usdjpyBid?
        = .ok (max 1 (min 500000
            ⌊balance * riskRatio * (19 / 20) * leverage
              / (match side with | .buy => q.ask | .sell => q.bid)⌋)))
    ∧ (containsJPY symbol = false → ∀ u : ℚ, usdjpyBid? = some u → 0 < u →
      calc_auto_lot_gmobot2 riskRatio balance leverage symbol side (some q) usdjpyBid?
        = .ok (max 1 (min 500000
            ⌊balance * riskRatio * (19 / 20) / u * leverage
              / (match side with | .buy => q.ask | .sell => q.bid)⌋)))
    ∧ (containsJPY symbol = false → usdjpyBid? = none →
      calc_auto_lot_gmobot2 riskRatio balance leverage symbol side (some q) usdjpyBid?
        = .ok (max 1 (min 500000
            ⌊balance * riskRatio * (19 / 20) * leverage
              / (match side with | .buy => q.ask | .sell => q.bid)⌋)))
    ∧ (∀ v : ℤ,
      calc_auto_lot_gmobot2 riskRatio balance leverage symbol side (some q) usdjpyBid?
        = .ok v → 1 ≤ v ∧ v ≤ 500000) := by
  have hb' : ¬ (balance ≤ 0) := not_le.mpr hb
  have hl' : ¬ (leverage ≤ 0) := not_le.mpr hl
  cases side with
  | buy =>
    have hr' : ¬ (q.ask ≤ 0) := not_le.mpr hrate
    refine ⟨?_, ?_, ?_, ?_⟩
    · intro hjpy
      simp only [calc_auto_lot_gmobot2, if_neg hb', if_neg hl', if_neg hsym, if_neg hr', hjpy,
        if_true, clamp_eq_max_min]
    · intro hjpy u hu hupos
      subst hu
      simp only [calc_auto_lot_gmobot2, if_neg hb', if_neg hl', if_neg hsym, if_neg hr', hjpy,
        Bool.false_eq_true, if_false, if_pos hupos, clamp_eq_max_min]
    · intro hjpy hu
      subst hu
      simp only [calc_auto_lot_gmobot2, if_neg hb', if_neg hl', if_neg hsym, if_neg hr', hjpy,
        Bool.false_eq_true, if_false, clamp_eq_max_min]
    · intro v hv
      simp only [calc_auto_lot_gmobot2, if_neg hb', if_neg hl', if_neg hsym, if_neg hr'] at hv
      have hv' := Except.ok.inj hv
      rw [clamp_eq_max_min] at hv'
      omega
  | sell =>
    have hr' : ¬ (q.bid ≤ 0) := not_le.mpr hrate
    refine ⟨?_, ?_, ?_, ?_⟩
    · intro hjpy
      simp only [calc_auto_lot_gmobot2, if_neg hb', if_neg hl', if_neg hsym, if_neg hr', hjpy,
        if_true, clamp_eq_max_min]
    · intro hjpy u hu hupos
      subst hu
      simp only [calc_auto_lot_gmobot2, if_neg hb', if_neg hl', if_neg hsym, if_neg hr', hjpy,
        Bool.false_eq_true, if_false, if_pos hupos, clamp_eq_max_min]
    · intro hjpy hu
      subst hu
      simp only [calc_auto_lot_gmobot2, if_neg hb', if_neg hl', if_neg hsym, if_neg hr', hjpy,
        Bool.false_eq_true, if_false, clamp_eq_max_min]
    · intro v hv
      simp only [calc_auto_lot_gmobot2, if_neg hb', if_neg hl', if_neg hsym, if_neg hr'] at hv
      have hv' := Except.ok.inj hv
      rw [clamp_eq_max_min] at hv'
      omega

/-- C6, witness: balance 100000, leverage 10, riskRatio 1.0, USD_JPY at ask
150.000 for BUY yields volume 6333 = floor(95000 × 10 / 150). -/
theorem calc_auto_lot_gmobot2_witness :
    (0 : ℚ) < 100000 ∧ (0 : ℚ) < 10 ∧ (0 : ℚ) < 150 ∧
      calc_auto_lot_gmobot2 1 100000 10 "USD_JPY" .buy (some ⟨149999/1000, 150⟩) none
        = .ok 6333 := by
  refine ⟨by norm_num, by norm_num, by norm_num, ?_⟩
  have h := (calc_auto_lot_gmobot2_spec 1 100000 10 "USD_JPY" .buy ⟨149999/1000, 150⟩ none
    (by norm_num) (by norm_num) (by decide) (by norm_num)).1 (by decide)
  rw [h]
  norm_num

/-! ## Order submission and the daily volume ledger (src/main.py, `send_order`, lines 600-750)

`symbol_daily_volume` is a dict from symbol to the cumulative size traded
today; `SYMBOL_DAILY_VOLUME_LIMIT` caps it.  The external interactions of
`send_order` — the balance fetch plus `calc_auto_lot_gmobot2` (which together
either produce an integer volume or raise), the HTTP POST through
`retry_request`, and the shape of its response — are passed as explicit
fields of the request. -/

/-- The dict `symbol_daily_volume`. -/
def Ledger := List (String × ℚ)

/-- `symbol_daily_volume.get(symbol, 0)`. -/
def ledgerGet (l : Ledger) (s : String) : ℚ :=
  match l with
  | [] => 0
  | (k, v) :: rest => if k = s then v else ledgerGet rest s

/-- `symbol_daily_volume[symbol] = v`. -/
def ledgerSet (l : Ledger) (s : String) (v : ℚ) : Ledger :=
  match l with
  | [] => [(s, v)]
  | (k, w) :: rest => if k = s then (s, v) :: rest else (k, w) :: ledgerSet rest s v

/-- Module configuration relevant to `send_order`: `AUTOLOT == 'TRUE'` and
`SYMBOL_DAILY_VOLUME_LIMIT`. -/
structure OrderEnv where
  autolot : Bool
  volumeLimit : ℚ

/-- The ways `send_order` raises. -/
inductive OrderError where
  | capExceeded
  | autoLotFailed
  | requestFailed
  | invalidResponse
deriving DecidableEq, Repr

/-- One `send_order` call: its inputs plus the outcomes of its external
interactions.  `autoSize?` is the volume produced by the balance fetch and
`calc_auto_lot_gmobot2` (`none` when any step of that block raises); `apiOk`
is whether `retry_request` returned instead of raising; `hasData` is whether
the response carried a non-empty `'data'` field. -/
structure OrderReq where
  symbol : String
  size? : Option ℚ
  autoSize? : Option ℤ
  apiOk : Bool
  hasData : Bool

/-- Result of one `send_order` call: the returned value or the raised error,
the (possibly updated) `symbol_daily_volume`, and whether the HTTP order
request was issued at all. -/
structure OrderOutcome where
  outcome : Except OrderError (Option ℚ)
  ledger : Ledger
  submitted : Bool

/-- The tail of `send_order` from the HTTP POST on: raise on request failure,
raise on a response without non-empty `'data'`, and only then add the traded
size (when one is known) to `symbol_daily_volume`. -/
def submitOrder (ledger : Ledger) (r : OrderReq) (size? : Option ℚ) : OrderOutcome :=
  if ¬ r.apiOk then ⟨.error .requestFailed, ledger, true⟩
  else if ¬ r.hasData then ⟨.error .invalidResponse, ledger, true⟩
  else
    match size? with
    | some s => ⟨.ok (some s), ledgerSet ledger r.symbol (ledgerGet ledger r.symbol + s), true⟩
    | none => ⟨.ok none, ledger, true⟩

/-- Translation of `send_order(symbol, side, size, leverage)`.  An explicit
size is cap-checked before anything else; with autolot on and no explicit
size, the auto-computed size is cap-checked after computation; either check
failing raises before any order is sent. -/
def send_order (env : OrderEnv) (ledger : Ledger) (r : OrderReq) : OrderOutcome :=
  match r.size? with
  | some s =>
    if env.volumeLimit < ledgerGet ledger r.symbol + s then ⟨.error .capExceeded, ledger, false⟩
    else submitOrder ledger r (some s)
  | none =>
    if env.autolot then
      match r.autoSize? with
      | none => ⟨.error .autoLotFailed, ledger, false⟩
      | some z =>
        if env.volumeLimit < ledgerGet ledger r.symbol + (z : ℚ) then
          ⟨.error .capExceeded, ledger, false⟩
        else submitOrder ledger r (some (z : ℚ))
    else submitOrder ledger r none

/-- The size `send_order` will trade for a request, when one is determined
before submission: the explicit size, or the auto-computed one when autolot
is on. -/
def knownSize (env : OrderEnv) (r : OrderReq) : Option ℚ :=
  match r.size? with
  | some s => some s
  | none => if env.autolot then r.autoSize?.map (fun z => (z : ℚ)) else none

/-- Run a sequence of `send_order` calls, collecting the (symbol, size) pair
of every successful order whose size was known. -/
def runOrders (env : OrderEnv) (ledger : Ledger) : List OrderReq → Ledger × List (String × ℚ)
  | [] => (ledger, [])
  | r :: rs =>
    let res := send_order env ledger r
    let rest := runOrders env res.ledger rs
    match res.outcome with
    | .ok (some s) => (rest.1, (r.symbol, s) :: rest.2)
    | _ => (rest.1, rest.2)

/-- Sum of the sizes recorded for one symbol. -/
def sumSizesFor (sym : String) (l : List (String × ℚ)) : ℚ :=
  ((l.filter (fun p => decide (p.1 = sym))).map Prod.snd).sum

lemma ledgerGet_ledgerSet (l : Ledger) (k s : String) (v : ℚ) :
    ledgerGet (ledgerSet l k v) s = if k = s then v else ledgerGet l s := by
  induction l with
  | nil => simp [ledgerSet, ledgerGet]
  | cons p rest ih =>
    obtain ⟨k', w⟩ := p
    by_cases hk : k' = k
    · subst hk
      simp only [ledgerSet, if_pos rfl, ledgerGet]
      split_ifs <;> simp_all
    · simp only [ledgerSet, if_neg hk, ledgerGet, ih]
      split_ifs <;> simp_all

lemma send_order_error_ledger (env : OrderEnv) (ledger : Ledger) (r : OrderReq)
    (e : OrderError) (h : (send_order env ledger r).outcome = .error e) :
    (send_order env ledger r).ledger = ledger := by
  rcases r with ⟨sym, size?, auto?, apiOk, hasData⟩
  rcases env with ⟨autolot, lim⟩
  rcases size? with _ | s <;> rcases auto? with _ | z <;>
    cases apiOk <;> cases hasData <;> cases autolot <;>
    simp only [send_order, submitOrder] at h ⊢ <;>
    split_ifs at h ⊢ <;> first | rfl | simp_all

lemma send_order_ok_some (env : OrderEnv) (ledger : Ledger) (r : OrderReq) (s₀ : ℚ)
    (h : (send_order env ledger r).outcome = .ok (some s₀)) :
    (send_order env ledger r).ledger
        = ledgerSet ledger r.symbol (ledgerGet ledger r.symbol + s₀)
      ∧ ledgerGet ledger r.symbol + s₀ ≤ env.volumeLimit := by
  rcases r with ⟨sym, size?, auto?, apiOk, hasData⟩
  rcases env with ⟨autolot, lim⟩
  rcases size? with _ | s <;> rcases auto? with _ | z <;>
    cases apiOk <;> cases hasData <;> cases autolot <;>
    simp only [send_order, submitOrder] at h ⊢ <;>
    split_ifs at h ⊢ <;> first | rfl | simp_all

lemma send_order_ok_none (env : OrderEnv) (ledger : Ledger) (r : OrderReq)
    (h : (send_order env ledger r).outcome = .ok none) :
    (send_order env ledger r).ledger = ledger := by
  rcases r with ⟨sym, size?, auto?, apiOk, hasData⟩
  rcases env with ⟨autolot, lim⟩
  rcases size? with _ | s <;> rcases auto? with _ | z <;>
    cases apiOk <;> cases hasData <;> cases autolot <;>
    simp only [send_order, submitOrder] at h ⊢ <;>
    split_ifs at h ⊢ <;> first | rfl | simp_all

lemma runOrders_cons_fst (env : OrderEnv) (ledger : Ledger) (r : OrderReq)
    (rs : List OrderReq) :
    (runOrders env ledger (r :: rs)).1
      = (runOrders env (send_order env ledger r).ledger rs).1 := by
  simp only [runOrders]
  rcases (send_order env ledger r).outcome with e | os
  · rfl
  · rcases os with _ | s <;> rfl

lemma runOrders_cons_snd_err (env : OrderEnv) (ledger : Ledger) (r : OrderReq)
    (rs : List OrderReq) (e : OrderError)
    (h : (send_order env ledger r).outcome = .error e) :
    (runOrders env ledger (r :: rs)).2
      = (runOrders env (send_order env ledger r).ledger rs).2 := by
  simp only [runOrders]
  rw [h]

lemma runOrders_cons_snd_ok_none (env : OrderEnv) (ledger : Ledger) (r : OrderReq)
    (rs : List OrderReq)
    (h : (send_order env ledger r).outcome = .ok none) :
    (runOrders env ledger (r :: rs)).2
      = (runOrders env (send_order env ledger r).ledger rs).2 := by
  simp only [runOrders]
  rw [h]

lemma runOrders_cons_snd_ok_some (env : OrderEnv) (ledger : Ledger) (r : OrderReq)
    (rs : List OrderReq) (s : ℚ)
    (h : (send_order env ledger r).outcome = .ok (some s)) :
    (runOrders env ledger (r :: rs)).2
      = (r.symbol, s) :: (runOrders env (send_order env ledger r).ledger rs).2 := by
  simp only [runOrders]
  rw [h]

lemma runOrders_ledgerGet (env : OrderEnv) (reqs : List OrderReq) (ledger : Ledger)
    (sym : String) :
    ledgerGet (runOrders env ledger reqs).1 sym
      = ledgerGet ledger sym + sumSizesFor sym (runOrders env ledger reqs).2 := by
  induction reqs generalizing ledger with
  | nil => simp [runOrders, sumSizesFor]
  | cons r rs ih =>
    rcases ho : (send_order env ledger r).outcome with e | os
    · rw [runOrders_cons_fst, runOrders_cons_snd_err env ledger r rs e ho,
        send_order_error_ledger env ledger r e ho, ih]
    · rcases os with _ | s
      · rw [runOrders_cons_fst, runOrders_cons_snd_ok_none env ledger r rs ho,
          send_order_ok_none env ledger r ho, ih]
      · obtain ⟨hl, hcap⟩ := send_order_ok_some env ledger r s ho
        rw [runOrders_cons_fst, runOrders_cons_snd_ok_some env ledger r rs s ho, hl, ih,
          ledgerGet_ledgerSet]
        simp only [sumSizesFor, List.filter_cons]
        by_cases hsym : r.symbol = sym
        · simp [hsym]
          ring
        · simp [hsym]

lemma runOrders_cap (env : OrderEnv) (reqs : List OrderReq) (ledger : Ledger)
    (sym : String) (h : ledgerGet ledger sym ≤ env.volumeLimit) :
    ledgerGet (runOrders env ledger reqs).1 sym ≤ env.volumeLimit := by
  induction reqs generalizing ledger with
  | nil => exact h
  | cons r rs ih =>
    rw [runOrders_cons_fst]
    apply ih
    rcases ho : (send_order env ledger r).outcome with e | os
    · rw [send_order_error_ledger env ledger r e ho]
      exact h
    · rcases os with _ | s
      · rw [send_order_ok_none env ledger r ho]
        exact h
      · obtain ⟨hl, hcap⟩ := send_order_ok_some env ledger r s ho
        rw [hl, ledgerGet_ledgerSet]
        split_ifs with he
        · exact hcap
        · exact h

/-- C5: an order whose size is known (explicit or auto-computed) and would push
the symbol's cumulative daily volume past SYMBOL_DAILY_VOLUME_LIMIT makes
`send_order` raise without submitting and without touching the ledger; and over
any run of orders from a reset ledger, each symbol's ledger entry equals the
sum of the executed sizes of its successful orders and so never exceeds the
cap. -/
theorem send_order_volume_cap (env : OrderEnv) (hlim : 0 ≤ env.volumeLimit) :
    (∀ (ledger : Ledger) (r : OrderReq) (s : ℚ), knownSize env r = some s →
      env.volumeLimit < ledgerGet ledger r.symbol + s →
      (send_order env ledger r).outcome = .error .capExceeded
        ∧ (send_order env ledger r).submitted = false
        ∧ (send_order env ledger r).ledger = ledger)
    ∧ (∀ (reqs : List OrderReq) (sym : String),
      ledgerGet (runOrders env [] reqs).1 sym = sumSizesFor sym (runOrders env [] reqs).2
        ∧ ledgerGet (runOrders env [] reqs).1 sym ≤ env.volumeLimit) := by
  constructor
  · intro ledger r s hk hover
    rcases hs : r.size? with _ | s₀
    · simp only [knownSize, hs] at hk
      split at hk
      case isFalse => exact absurd hk (by simp)
      case isTrue henv =>
        rcases ha : r.autoSize? with _ | z
        · rw [ha] at hk
          exact absurd hk (by simp)
        · rw [ha] at hk
          simp only [Option.map] at hk
          have hz : (z : ℚ) = s := Option.some.inj hk
          rw [← hz] at hover
          simp only [send_order, hs, henv, ha, if_true, if_pos hover]
          exact ⟨trivial, trivial, trivial⟩
    · simp only [knownSize, hs] at hk
      have hs₀ : s₀ = s := Option.some.inj hk
      rw [← hs₀] at hover
      simp only [send_order, hs, if_pos hover]
      exact ⟨trivial, trivial, trivial⟩
  · intro reqs sym
    have h1 := runOrders_ledgerGet env reqs [] sym
    have h2 : ledgerGet [] sym = 0 := rfl
    rw [h2, zero_add] at h1
    exact ⟨h1, runOrders_cap env reqs [] sym (by rw [h2]; exact hlim)⟩

/-- C5, witness: with the cap at 15000000, two successful explicit-size orders
of 5000 and 7000 lots leave the USD_JPY ledger entry at their sum. -/
theorem send_order_volume_cap_witness :
    (0 : ℚ) ≤ 15000000 ∧
      (ledgerGet (runOrders ⟨true, 15000000⟩ []
          [⟨"USD_JPY", some 5000, none, true, true⟩,
           ⟨"USD_JPY", some 7000, none, true, true⟩]).1 "USD_JPY"
        = sumSizesFor "USD_JPY" (runOrders ⟨true, 15000000⟩ []
          [⟨"USD_JPY", some 5000, none, true, true⟩,
           ⟨"USD_JPY", some 7000, none, true, true⟩]).2
      ∧ ledgerGet (runOrders ⟨true, 15000000⟩ []
          [⟨"USD_JPY", some 5000, none, true, true⟩,
           ⟨"USD_JPY", some 7000, none, true, true⟩]).1 "USD_JPY" ≤ 15000000) :=
  ⟨by norm_num,
    (send_order_volume_cap ⟨true, 15000000⟩ (by norm_num)).2
      [⟨"USD_JPY", some 5000, none, true, true⟩,
       ⟨"USD_JPY", some 7000, none, true, true⟩] "USD_JPY"⟩

/-- C9: `send_order` is atomic with respect to `symbol_daily_volume` — on every
raising path (cap pre-check, auto-lot failure, auto-lot cap check, request
failure, invalid response) the ledger is left unchanged; it is incremented only
after a validated successful response. -/
theorem send_order_raise_preserves_ledger (env : OrderEnv) (ledger : Ledger)
    (r : OrderReq) (e : OrderError)
    (h : (send_order env ledger r).outcome = .error e) :
    (send_order env ledger r).ledger = ledger :=
  send_order_error_ledger env ledger r e h

/-- C9, witness: a cap-violating order raises and leaves the ledger intact. -/
theorem send_order_raise_preserves_ledger_witness :
    ((send_order ⟨true, 100⟩ [("USD_JPY", 90)]
        ⟨"USD_JPY", some 20, none, true, true⟩).outcome
      = .error .capExceeded)
    ∧ (send_order ⟨true, 100⟩ [("USD_JPY", 90)]
        ⟨"USD_JPY", some 20, none, true, true⟩).ledger = [("USD_JPY", 90)] := by
  have houtcome : (send_order ⟨true, 100⟩ [("USD_JPY", 90)]
      ⟨"USD_JPY", some 20, none, true, true⟩).outcome = .error .capExceeded := by
    norm_num [send_order, ledgerGet]
  exact ⟨houtcome,
    send_order_raise_preserves_ledger ⟨true, 100⟩ [("USD_JPY", 90)]
      ⟨"USD_JPY", some 20, none, true, true⟩ .capExceeded houtcome⟩

/-! ## Unrealized profit and the position monitor
(src/main.py, `calculate_current_profit_pips`, lines 854-880, and
`monitor_and_close_positions`, lines 1144-1228)

Python values reaching `calculate_current_profit_pips` are dynamically
typed; `PyVal` models the shapes that matter: numbers and numeric strings
(which `float()` converts), non-numeric strings and `None` (which make
`float()` raise `ValueError`/`TypeError`), and dicts. -/

inductive PyVal where
  | num (q : ℚ)
  | numStr (q : ℚ)
  | str (s : String)
  | noneVal
  | dict (entries : List (String × PyVal))

/-- Python `float(v)`: succeeds on numbers and numeric strings, raises
(`ValueError`/`TypeError`, both caught by the caller) otherwise. -/
def pyFloat? : PyVal → Option ℚ
  | .num q => some q
  | .numStr q => some q
  | _ => none

/-- Dict lookup `d[k]` on a `PyVal.dict` entry list. -/
def lookupPy : List (String × PyVal) → String → Option PyVal
  | [], _ => none
  | (k, v) :: rest, s => if k = s then some v else lookupPy rest s

/-- The guard `isinstance(current_price, dict) and 'bid' in current_price and
'ask' in current_price`, returning the two fields when it passes. -/
def quoteFields : PyVal → Option (PyVal × PyVal)
  | .dict es =>
    match lookupPy es "bid", lookupPy es "ask" with
    | some b, some a => some (b, a)
    | _, _ => none
  | _ => none

/-- Python `round(x)` to an integer: round-half-to-even. -/
def roundHalfEven (q : ℚ) : ℤ :=
  if q - ⌊q⌋ < 1 / 2 then ⌊q⌋
  else if 1 / 2 < q - ⌊q⌋ then ⌊q⌋ + 1
  else if ⌊q⌋ % 2 = 0 then ⌊q⌋ else ⌊q⌋ + 1

/-- Python `round(x, 2)`. -/
def pyRound2 (q : ℚ) : ℚ := (roundHalfEven (q * 100) : ℚ) / 100

/-- Translation of `calculate_current_profit_pips(entry_price, current_price,
side, symbol)`: pip value 0.01 for symbols containing "JPY" else 0.0001;
returns 0.0 when `current_price` is not a dict with both 'bid' and 'ask', or
when any of the three `float()` conversions raises. -/
def calculate_current_profit_pips (entry_price current_price : PyVal)
    (side : Side) (symbol : String) : ℚ :=
  let pip_value : ℚ := if containsJPY symbol then 1 / 100 else 1 / 10000
  match quoteFields current_price with
  | none => 0
  | some (b, a) =>
    match pyFloat? b, pyFloat? a, pyFloat? entry_price with
    | some bid, some ask, some ep =>
      pyRound2 (match side with
        | .buy => (bid - ep) / pip_value
        | .sell => (ep - ask) / pip_value)
    | _, _, _ => 0

/-- The stop-loss test in `monitor_and_close_positions`:
`if STOP_LOSS_PIPS and profit_pips <= -STOP_LOSS_PIPS` (a zero configuration
is falsy and disables the check). -/
def sl_triggers (stopLossPips profit : ℚ) : Bool :=
  stopLossPips ≠ 0 && profit ≤ -stopLossPips

/-- The take-profit test in `monitor_and_close_positions`:
`elif TAKE_PROFIT_PIPS and profit_pips >= TAKE_PROFIT_PIPS`. -/
def tp_triggers (takeProfitPips profit : ℚ) : Bool :=
  takeProfitPips ≠ 0 && takeProfitPips ≤ profit

/-- C10: `calculate_current_profit_pips` is total — for any `current_price`
that is not a dict containing both 'bid' and 'ask', and on any numeric
conversion failure, it returns 0.0; and a zero profit value never fires the
monitor's stop-loss or take-profit test for any configuration within the
validated range (stop_loss_pips, take_profit_pips ≥ 0). -/
theorem calculate_current_profit_pips_safe :
    (∀ (entry current : PyVal) (side : Side) (symbol : String),
      quoteFields current = none →
      calculate_current_profit_pips entry current side symbol = 0)
    ∧ (∀ (entry current : PyVal) (side : Side) (symbol : String) (b a : PyVal),
      quoteFields current = some (b, a) →
      (pyFloat? b = none ∨ pyFloat? a = none ∨ pyFloat? entry = none) →
      calculate_current_profit_pips entry current side symbol = 0)
    ∧ (∀ sl : ℚ, 0 ≤ sl → sl_triggers sl 0 = false)
    ∧ (∀ tp : ℚ, 0 ≤ tp → tp_triggers tp 0 = false) := by
  refine ⟨?_, ?_, ?_, ?_⟩
  · intro entry current side symbol hq
    simp [calculate_current_profit_pips, hq]
  · intro entry current side symbol b a hq hfail
    rcases hb : pyFloat? b with _ | bid <;>
      rcases ha : pyFloat? a with _ | ask <;>
      rcases he : pyFloat? entry with _ | ep <;>
      simp_all [calculate_current_profit_pips, hq]
  · intro sl hsl
    by_cases h0 : sl = 0
    · simp [sl_triggers, h0]
    · have hpos : 0 < sl := lt_of_le_of_ne hsl (Ne.symm h0)
      have hlt : ¬ ((0 : ℚ) ≤ -sl) := not_le.mpr (by linarith)
      simp [sl_triggers, h0, hlt]
  · intro tp htp
    by_cases h0 : tp = 0
    · simp [tp_triggers, h0]
    · have hpos : 0 < tp := lt_of_le_of_ne htp (Ne.symm h0)
      have hlt : ¬ (tp ≤ 0) := not_le.mpr hpos
      simp [tp_triggers, h0, hlt]

/-- C10, witness: a malformed quote (a plain string) yields zero pips, and a
zero profit fires neither a 20-pip stop-loss nor a 30-pip take-profit. -/
theorem calculate_current_profit_pips_safe_witness :
    quoteFields (PyVal.str "no quote") = none
    ∧ calculate_current_profit_pips (PyVal.num 150) (PyVal.str "no quote") .buy "USD_JPY" = 0
    ∧ ((0 : ℚ) ≤ 20 ∧ sl_triggers 20 0 = false)
    ∧ ((0 : ℚ) ≤ 30 ∧ tp_triggers 30 0 = false) :=
  ⟨rfl,
    calculate_current_profit_pips_safe.1 (PyVal.num 150) (PyVal.str "no quote") .buy
      "USD_JPY" rfl,
    ⟨by norm_num, calculate_current_profit_pips_safe.2.2.1 20 (by norm_num)⟩,
    ⟨by norm_num, calculate_current_profit_pips_safe.2.2.2 30 (by norm_num)⟩⟩

/-! ## Bounded auto-restart (src/main.py, `auto_restart_on_error`, lines 2598-2643)

Module globals: `restart_count = 0`, `last_restart_time = 0`,
`restart_cooldown = 300`, `max_restarts = 5`.  The `os.execv` call is
modelled by an `execOk` flag: when it succeeds the process is replaced (the
function effectively returns True); when it raises, the function returns
False.  `capReported` records the manual-intervention message sent when the
restart budget is exhausted. -/

structure RestartState where
  restart_count : ℕ
  last_restart_time : ℚ
deriving DecidableEq, Repr

structure RestartResult where
  ok : Bool
  state : RestartState
  execAttempted : Bool
  capReported : Bool
deriving DecidableEq, Repr

/-- Translation of `auto_restart_on_error()` invoked at instant `now`
(`current_time = time.time()`): refuse inside the 300 s cooldown window;
refuse with a manual-intervention report when `restart_count >= max_restarts`
(5); otherwise bump the counter, record the time, and attempt the re-exec. -/
def auto_restart_on_error (s : RestartState) (now : ℚ) (execOk : Bool) :
    RestartResult :=
  if now - s.last_restart_time < 300 then ⟨false, s, false, false⟩
  else if 5 ≤ s.restart_count then ⟨false, s, false, true⟩
  else
    let s' : RestartState := ⟨s.restart_count + 1, now⟩
    if execOk then ⟨true, s', true, false⟩ else ⟨false, s', true, false⟩

/-- Fold a sequence of invocation instants through `auto_restart_on_error`. -/
def runRestarts (s : RestartState) (times : List ℚ) (execOk : Bool) : RestartState :=
  times.foldl (fun st t => (auto_restart_on_error st t execOk).state) s

/-- C8: `auto_restart_on_error` never performs a restart when invoked less than
300 s after the previous restart or when the restart count has reached 5 — it
returns False, attempts no re-exec and leaves the state unchanged; and on the
6th invocation after five restarts spaced exactly at the cooldown bound, the
attempt is refused and the manual-intervention halt is reported. -/
theorem auto_restart_guarded (s : RestartState) (now : ℚ) (execOk : Bool)
    (h : now - s.last_restart_time < 300 ∨ 5 ≤ s.restart_count) :
    ((auto_restart_on_error s now execOk).ok = false
      ∧ (auto_restart_on_error s now execOk).execAttempted = false
      ∧ (auto_restart_on_error s now execOk).state = s)
    ∧ ((auto_restart_on_error
          (runRestarts ⟨0, 0⟩ [1000, 1300, 1600, 1900, 2200] false) 2500 false).ok = false
      ∧ (auto_restart_on_error
          (runRestarts ⟨0, 0⟩ [1000, 1300, 1600, 1900, 2200] false) 2500 false).capReported
          = true
      ∧ (auto_restart_on_error
          (runRestarts ⟨0, 0⟩ [1000, 1300, 1600, 1900, 2200] false) 2500 false).execAttempted
          = false) := by
  constructor
  · rcases h with hcool | hcap
    · simp [auto_restart_on_error, hcool]
    · by_cases hcool : now - s.last_restart_time < 300
      · simp [auto_restart_on_error, hcool]
      · simp [auto_restart_on_error, hcool, hcap]
  · have hrun : runRestarts ⟨0, 0⟩ [1000, 1300, 1600, 1900, 2200] false
        = ⟨5, 2200⟩ := by
      norm_num [runRestarts, auto_restart_on_error]
    rw [hrun]
    norm_num [auto_restart_on_error]

/-- C8, witness: the guard theorem applied at the state after five restarts,
invoked again 300 s later — refused with the cap report. -/
theorem auto_restart_guarded_witness :
    ((5 : ℕ) ≤ (5 : ℕ))
    ∧ ((auto_restart_on_error ⟨5, 2200⟩ 2500 false).ok = false
      ∧ (auto_restart_on_error ⟨5, 2200⟩ 2500 false).execAttempted = false
      ∧ (auto_restart_on_error ⟨5, 2200⟩ 2500 false).state = ⟨5, 2200⟩) :=
  ⟨le_refl 5,
    (auto_restart_guarded ⟨5, 2200⟩ 2500 false (Or.inr (le_refl 5))).1⟩

/-! ## Day-end aggregation (src/main.py, `finalize_trades_for_day`, lines
1553-1650, and the daily loop in `main`, lines 2080-2091)

Calendar instants are naturals counting seconds; a trading day starts at a
multiple of 86400.  A TradeResult's recorded `exit_time` string is either
"HH:MM:SS" (the only form the code ever writes, via `strftime('%H:%M:%S')`),
an ISO timestamp, unparseable, or absent. -/

inductive ExitTimeField where
  | hms (secOfDay : ℕ)
  | iso (abs : ℕ)
  | bad
deriving DecidableEq, Repr

structure TradeResult where
  symbol : String
  side : String
  entry_price : ℚ
  exit_price : ℚ
  profit_pips : ℚ
  profit_amount : ℚ
  lot_size : ℚ
  exit_time : Option ExitTimeField
deriving DecidableEq, Repr

/-- The exit-instant resolution inside `finalize_trades_for_day`: an
"HH:MM:SS" exit is combined with the target date, an ISO exit is taken as
is, and a missing or unparseable exit is treated as the 19:00 cutoff
itself. -/
def resolveExitTime (dayStart : ℕ) (t : Option ExitTimeField) : ℕ :=
  match t with
  | none => dayStart + 19 * 3600
  | some (.hms s) => dayStart + s
  | some (.iso a) => a
  | some .bad => dayStart + 19 * 3600

/-- Translation of `finalize_trades_for_day(target_date)` as a function of the
accumulated `trade_results`: split at the 19:00 cutoff of the target date into
the aggregated-and-exported list and the remainder left in `trade_results`. -/
def finalize_trades_for_day (dayStart : ℕ) (results : List TradeResult) :
    List TradeResult × List TradeResult :=
  (results.filter (fun tr => decide (resolveExitTime dayStart tr.exit_time < dayStart + 19 * 3600)),
   results.filter (fun tr => ! decide (resolveExitTime dayStart tr.exit_time < dayStart + 19 * 3600)))

/-- What `trade_results` holds when the next day's cycle begins, per `main`
(src/main.py lines 2080-2091): `execute_daily_trades` ends by calling
`finalize_trades_for_day`, which leaves the post-cutoff remainder in
`trade_results` — and then `main` executes `trade_results = []` (line 2087)
before waiting for the next day. -/
def trade_results_entering_next_day (dayStart : ℕ) (results : List TradeResult) :
    List TradeResult :=
  let _after_finalize := (finalize_trades_for_day dayStart results).2
  ([] : List TradeResult)

/-- C1: a TradeResult that exits at 20:00 (after the 19:00 cutoff) is indeed
kept in `trade_results` by `finalize_trades_for_day` itself — but the daily
cycle in `main` then resets `trade_results` to `[]`, so the post-cutoff result
does not survive into the next day's ledger, contradicting the claim. -/
theorem post_cutoff_trade_dropped_by_daily_reset :
    (finalize_trades_for_day 0
      [{ symbol := "USD_JPY", side := "BUY", entry_price := 150, exit_price := 151,
         profit_pips := 100, profit_amount := 10000, lot_size := 10000,
         exit_time := some (.hms 72000) }]).1 = []
    ∧ (finalize_trades_for_day 0
      [{ symbol := "USD_JPY", side := "BUY", entry_price := 150, exit_price := 151,
         profit_pips := 100, profit_amount := 10000, lot_size := 10000,
         exit_time := some (.hms 72000) }]).2
      = [{ symbol := "USD_JPY", side := "BUY", entry_price := 150, exit_price := 151,
           profit_pips := 100, profit_amount := 10000, lot_size := 10000,
           exit_time := some (.hms 72000) }]
    ∧ trade_results_entering_next_day 0
      [{ symbol := "USD_JPY", side := "BUY", entry_price := 150, exit_price := 151,
         profit_pips := 100, profit_amount := 10000, lot_size := 10000,
         exit_time := some (.hms 72000) }] = [] :=
  ⟨rfl, rfl, rfl⟩

/-! ## Trade-plan time resolution (src/main.py, `execute_daily_trades`, lines
1796-1838)

A plan row's "HH:MM:SS" entry and exit times are parsed onto the current
day, pushed one day forward when already past (or before the previous
cycle's last recorded exit, for continuity across midnight), and the exit
is pushed one day forward when not strictly after the entry.  `now` is the
resolution instant in seconds; `now - now % 86400` is today's midnight. -/

/-- Translation of the entry/exit resolution loop of `execute_daily_trades`
for one plan row: `entrySecs`/`exitSecs` are the parsed seconds-of-day and
`lastTradeTime?` the previous cycle's last recorded exit instant. -/
def resolve_trade_times (now : ℕ) (lastTradeTime? : Option ℕ)
    (entrySecs exitSecs : ℕ) : ℕ × ℕ :=
  let dayStart := now - now % 86400
  let entry0 := dayStart + entrySecs
  let entry :=
    match lastTradeTime? with
    | some ltt =>
      if entry0 < ltt then entry0 + 86400
      else if entry0 < now then entry0 + 86400
      else entry0
    | none => if entry0 < now then entry0 + 86400 else entry0
  let entryDayStart := entry - entry % 86400
  let exit0 := entryDayStart + exitSecs
  let exitResolved := if exit0 ≤ entry then exit0 + 86400 else exit0
  (entry, exitResolved)

/-- C4, counterexample to the claim as stated: a plan row whose entry time
equals the resolution instant to the second ("12:00:00" read exactly at
12:00:00) resolves the entry to the current instant itself — not strictly in
the future, since the adjustment uses a strict `<` comparison. -/
theorem resolve_entry_not_strictly_future :
    (resolve_trade_times 43200 none 43200 43260).1 = 43200
    ∧ ¬ (43200 < (resolve_trade_times 43200 none 43200 43260).1) := by
  constructor <;> decide

/-- C4, amended: for every valid plan row (entry and exit seconds-of-day below
86400) and a previous-cycle exit recorded, as the code does, as a time of day
on the previous calendar day, the resolved entry is never in the past (it can
equal the resolution instant exactly) and the resolved exit is strictly after
the resolved entry — hence strictly in the future. -/
theorem resolve_trade_times_spec (now : ℕ) (lastTradeTime? : Option ℕ)
    (e x : ℕ) (he : e < 86400) (hx : x < 86400)
    (hltt : ∀ t, lastTradeTime? = some t → t < now - now % 86400) :
    now ≤ (resolve_trade_times now lastTradeTime? e x).1
    ∧ (resolve_trade_times now lastTradeTime? e x).1
      < (resolve_trade_times now lastTradeTime? e x).2 := by
  rcases lastTradeTime? with _ | ltt
  · simp only [resolve_trade_times]
    constructor
    · split_ifs <;> omega
    · split_ifs <;> omega
  · have hl := hltt ltt rfl
    simp only [resolve_trade_times]
    constructor
    · split_ifs <;> omega
    · split_ifs <;> omega

/-- C4, witness: the spec's example — entry "23:50:00", exit "00:10:00", read
at 23:40:00 — resolves to (23:50:00 today, 00:10:00 on the entry's day plus
one), strictly after the entry. -/
theorem resolve_trade_times_spec_witness :
    ((85800 : ℕ) < 86400) ∧ ((600 : ℕ) < 86400)
    ∧ resolve_trade_times 85200 none 85800 600 = (85800, 87000)
    ∧ (85200 ≤ (resolve_trade_times 85200 none 85800 600).1
      ∧ (resolve_trade_times 85200 none 85800 600).1
        < (resolve_trade_times 85200 none 85800 600).2) :=
  ⟨by decide, by decide, by decide,
    resolve_trade_times_spec 85200 none 85800 600 (by decide) (by decide)
      (fun t ht => Option.noConfusion ht)⟩

end GmoBot
